import Mathlib

/-!
Shallow embedding of the Excel data-cleaner core (src/app.py).

The program manipulates a pandas DataFrame.  We model a DataFrame as a
`Table`: an ordered list of column names together with row-major data,
each row a list of cells positionally aligned with the column list.
Cell values form a closed sum over string, numeric, date and the missing
marker (pandas NaN / pd.NA), following the data model of the spec.

Modelling conventions, each noted at the definition it concerns:
  - Python string operations (str.strip, str.lower, str.replace) are
    modelled as character-list functions; lowercasing is the ASCII map,
    whitespace is the ASCII whitespace set.
  - A pandas column has object dtype exactly when it holds at least one
    string cell (select_dtypes(include="object")).
  - pandas duplicated()/drop_duplicates() compare rows with NaN equal to
    NaN, which matches decidable equality on `Cell` with `missing = missing`.
  - Column access by label (df[col]) resolves to the first position with
    that name; while labels are unique, label access and positional
    access agree.  When a label is duplicated, pandas df[col] returns a
    DataFrame instead of a Series and the cleaning loop and the
    missing-count comparison raise; validate_dataE and clean_dataE model
    that error path with Except, while the plain functions give the
    no-raise behavior.
-/

namespace ExcelApp

/-- Cell values: closed sum over string, numeric, date and the missing
marker (pandas NaN / pd.NA). -/
inductive Cell where
  | str (s : String)
  | num (n : Int)
  | date (d : Nat)
  | missing
deriving DecidableEq, Repr

/-- ASCII whitespace, the characters removed by Python str.strip(). -/
def isWs (c : Char) : Bool :=
  c = ' ' || c = '\t' || c = '\n' || c = '\r' || c = '\x0b' || c = '\x0c'

/-- Python str.strip() on character lists: drop whitespace from both ends. -/
def stripChars (l : List Char) : List Char :=
  (l.dropWhile isWs).rdropWhile isWs

/-- Python str.strip() on strings. -/
def pyStrip (s : String) : String := ⟨stripChars s.data⟩

/-- The ASCII case-folding table: uppercase letter paired with its
lowercase form. -/
def lowPairs : List (Char × Char) :=
  [('A', 'a'), ('B', 'b'), ('C', 'c'), ('D', 'd'), ('E', 'e'), ('F', 'f'),
   ('G', 'g'), ('H', 'h'), ('I', 'i'), ('J', 'j'), ('K', 'k'), ('L', 'l'),
   ('M', 'm'), ('N', 'n'), ('O', 'o'), ('P', 'p'), ('Q', 'q'), ('R', 'r'),
   ('S', 's'), ('T', 't'), ('U', 'u'), ('V', 'v'), ('W', 'w'), ('X', 'x'),
   ('Y', 'y'), ('Z', 'z')]

/-- ASCII lowercasing of one character (Python str.lower restricted to the
ASCII range): look the character up in the case-folding table, keeping it
unchanged when it is not an uppercase letter. -/
def lowChar (c : Char) : Char :=
  ((lowPairs.find? (fun p => p.1 = c)).map Prod.snd).getD c

/-- Python str.lower() on strings (ASCII model). -/
def pyLower (s : String) : String := ⟨s.data.map lowChar⟩

/-- One character of Python str.replace(" ", "_"): a single-character
pattern replacement is a pointwise map. -/
def replChar (c : Char) : Char := if c = ' ' then '_' else c

/-- Python str.replace(" ", "_") on strings. -/
def pyReplaceSpace (s : String) : String := ⟨s.data.map replChar⟩

/-- The column-name normalizer of normalize_columns:
astype(str).str.strip().str.lower().str.replace(" ", "_").  Column labels
are already strings in the model, so astype(str) is the identity. -/
def normName (s : String) : String := pyReplaceSpace (pyLower (pyStrip s))

/-- The character-list computation underlying `normName`. -/
def charNorm (l : List Char) : List Char :=
  ((stripChars l).map lowChar).map replChar

/-- A DataFrame: ordered column names and row-major data, each row
positionally aligned with the column list. -/
structure Table where
  cols : List String
  rows : List (List Cell)
deriving DecidableEq, Repr

/-- normalize_columns (src/app.py lines 9-18): copy the frame and map the
normalizer over the column labels; row data untouched. -/
def normalize_columns (df : Table) : Table :=
  { cols := df.cols.map normName, rows := df.rows }

/-- Whether a cell is a string. -/
def Cell.isStr : Cell → Bool
  | .str _ => true
  | _ => false

/-- Object-dtype test for column position j: a pandas column has object
dtype exactly when it holds at least one string cell.  Positions past the
end of a row read as missing. -/
def colIsObj (rows : List (List Cell)) (j : Nat) : Bool :=
  rows.any (fun r => (r.getD j Cell.missing).isStr)

/-- The per-cell effect of df[col].str.strip().replace("", pd.NA) on an
object column: strings are stripped, empty-after-strip becomes the missing
marker, and every non-string element (including NaN itself) is mapped to
NaN by the .str accessor. -/
def cleanCell : Cell → Cell
  | .str s => if pyStrip s = "" then Cell.missing else Cell.str (pyStrip s)
  | _ => Cell.missing

/-- One row of the string-cleaning loop, cells from absolute column
position j on: the transform applies at the object-dtype positions of
`rows` (the frame as it was when select_dtypes ran) and leaves the other
positions alone. -/
def cleanCellsFrom (rows : List (List Cell)) (j : Nat) : List Cell → List Cell
  | [] => []
  | c :: cs => (if colIsObj rows j then cleanCell c else c) :: cleanCellsFrom rows (j + 1) cs

/-- The whole string-cleaning loop of clean_data (lines 29-34), row-major. -/
def cleanRows (rows : List (List Cell)) : List (List Cell) :=
  rows.map (cleanCellsFrom rows 0)

/-- The scan behind drop_duplicates(): keep a row exactly when it differs
from every row already passed (held in `seen`). -/
def dedupeAux (seen : List (List Cell)) : List (List Cell) → List (List Cell)
  | [] => []
  | r :: rs => if r ∈ seen then dedupeAux seen rs else r :: dedupeAux (r :: seen) rs

/-- drop_duplicates() (line 37): remove every row equal to an earlier row,
keeping first occurrences in order.  NaN compares equal to NaN here, which
decidable equality on `Cell` gives. -/
def dedupeRows (rows : List (List Cell)) : List (List Cell) := dedupeAux [] rows

/-- clean_data (src/app.py lines 21-39): normalize the columns, strip the
object columns (empty string to NaN), then drop full-row duplicates. -/
def clean_data (df : Table) : Table :=
  let df1 := normalize_columns df
  { cols := df1.cols, rows := dedupeRows (cleanRows df1.rows) }

/-- df.duplicated().sum() scanner: a row is flagged when it equals some
earlier row (keep="first"); `seen` holds the rows already passed. -/
def dupCountAux (seen : List (List Cell)) : List (List Cell) → Nat
  | [] => 0
  | r :: rs => (if r ∈ seen then 1 else 0) + dupCountAux (r :: seen) rs

/-- df.duplicated().sum() (line 46). -/
def dupCount (rows : List (List Cell)) : Nat := dupCountAux [] rows

/-- isna: true exactly on the missing marker. -/
def isna : Cell → Bool
  | .missing => true
  | _ => false

/-- df[col].isna().sum() (line 55): resolve the label to its first
position and count missing cells there. -/
def missingCount (df : Table) (col : String) : Nat :=
  match df.cols.indexOf? col with
  | some i => (df.rows.map (fun r => r.getD i Cell.missing)).countP isna
  | none => 0

/-- The duplicate-rows issue string (line 48). -/
def dupIssue (n : Nat) : String := toString n ++ " duplicate rows found"

/-- The missing-required-column issue string (line 53). -/
def missingColIssue (col : String) : String := "Missing required column: " ++ col

/-- The missing-values issue string (line 57). -/
def missingValIssue (col : String) (n : Nat) : String :=
  "Column \x27" ++ col ++ "\x27 has " ++ toString n ++ " missing values"

/-- validate_data (src/app.py lines 42-59): accumulate issue strings, the
duplicate count first, then one pass over the required columns in order. -/
def validate_data (df : Table) (required_columns : List String) : List String :=
  let issues : List String := []
  let issues := if dupCount df.rows > 0 then issues ++ [dupIssue (dupCount df.rows)] else issues
  required_columns.foldl
    (fun issues col =>
      if col ∉ df.cols then issues ++ [missingColIssue col]
      else if missingCount df col > 0 then issues ++ [missingValIssue col (missingCount df col)]
      else issues)
    issues

/-- The Validation_Report table assembled at lines 130-135: one column
named Validation_Issues, rows the issues in order, or the single
No-issues row when the issue list is empty. -/
def report (issues : List String) : Table :=
  if issues.isEmpty then
    { cols := ["Validation_Issues"], rows := [[Cell.str "No issues found"]] }
  else
    { cols := ["Validation_Issues"], rows := issues.map (fun s => [Cell.str s]) }

/-- The duplicate-rows segment of the Validator output, stated the way the
spec enumerates it (present exactly when the count is positive). -/
def dupIssues (df : Table) : List String :=
  if dupCount df.rows > 0 then [dupIssue (dupCount df.rows)] else []

/-- The per-required-column segment of the Validator output, stated the way
the spec enumerates it. -/
def colIssues (df : Table) (col : String) : List String :=
  if col ∉ df.cols then [missingColIssue col]
  else if missingCount df col > 0 then [missingValIssue col (missingCount df col)]
  else []

/-- Spec-side form of the Validator output: the duplicate issue (if any)
followed by the per-column issues in required-column order. -/
def validateSpec (df : Table) (required_columns : List String) : List String :=
  dupIssues df ++ (required_columns.map (colIssues df)).flatten

/-- Number of occurrences of a column label: pandas df[col] returns a
Series when the label occurs once and a DataFrame when it is
duplicated. -/
def labelCount (cols : List String) (col : String) : Nat :=
  (cols.filter (fun c => c = col)).length

/-- One step of the required-column loop of validate_data with the
pandas label-collision error path modeled: when the required label is
present but duplicated, df[col] is a DataFrame, so missing_count is a
Series and the comparison at line 56, `if missing_count > 0:`, raises
ValueError; every other step accumulates issues as validate_data does. -/
def validateColE (df : Table) (issues : List String) (col : String) :
    Except String (List String) :=
  if col ∉ df.cols then .ok (issues ++ [missingColIssue col])
  else if labelCount df.cols col > 1 then .error "ValueError"
  else if missingCount df col > 0 then .ok (issues ++ [missingValIssue col (missingCount df col)])
  else .ok issues

/-- validate_data (lines 42-59) with the pandas error path modeled: the
loop propagates the first ValueError, exactly as a Python exception
aborts the call. -/
def validate_dataE (df : Table) (required_columns : List String) :
    Except String (List String) :=
  let issues : List String := []
  let issues := if dupCount df.rows > 0 then issues ++ [dupIssue (dupCount df.rows)] else issues
  required_columns.foldlM (validateColE df) issues

/-- clean_data (lines 21-39) with the pandas error path modeled: the
string-cleaning loop accesses df[col] for the label of each object-dtype
column; when such a label is duplicated after the normalization of line
26, df[col] is a DataFrame and df[col].str at line 32 raises
AttributeError; otherwise the result is clean_data. -/
def clean_dataE (df : Table) : Except String Table :=
  let df1 := normalize_columns df
  if (List.range df1.cols.length).any
      (fun j => colIsObj df1.rows j && labelCount df1.cols (df1.cols.getD j "") > 1) then
    .error "AttributeError"
  else .ok (clean_data df)

/-! ### Character-level lemmas -/

/-- Every entry of the case-folding table has a lowercase, non-whitespace,
non-space image that the table fixes, and a non-whitespace source. -/
theorem lowPairs_props :
    ∀ p ∈ lowPairs, lowChar p.2 = p.2 ∧ isWs p.2 = false ∧ isWs p.1 = false ∧ p.2 ≠ ' ' := by
  decide

theorem lowChar_of_find?_none {c : Char}
    (h : lowPairs.find? (fun p => p.1 = c) = none) : lowChar c = c := by
  simp [lowChar, h]

theorem lowChar_of_find?_some {c : Char} {p : Char × Char}
    (h : lowPairs.find? (fun p => p.1 = c) = some p) : lowChar c = p.2 := by
  simp [lowChar, h]

theorem lowChar_lowChar (c : Char) : lowChar (lowChar c) = lowChar c := by
  cases h : lowPairs.find? (fun p => p.1 = c) with
  | none =>
    have e := lowChar_of_find?_none h
    rw [e]
    exact e
  | some p =>
    have hp : p ∈ lowPairs := List.mem_of_find?_eq_some h
    have e := lowChar_of_find?_some h
    rw [e]
    exact (lowPairs_props p hp).1

theorem isWs_lowChar (c : Char) : isWs (lowChar c) = isWs c := by
  cases h : lowPairs.find? (fun p => p.1 = c) with
  | none =>
    have e := lowChar_of_find?_none h
    rw [e]
  | some p =>
    have hp : p ∈ lowPairs := List.mem_of_find?_eq_some h
    have hc : p.1 = c := by simpa using List.find?_some h
    have e := lowChar_of_find?_some h
    rw [e, ← hc, (lowPairs_props p hp).2.1, (lowPairs_props p hp).2.2.1]

theorem replChar_replChar (c : Char) : replChar (replChar c) = replChar c := by
  by_cases h : c = ' '
  · subst h; decide
  · simp [replChar, h]

theorem isWs_replChar_of_not {c : Char} (h : isWs c = false) : isWs (replChar c) = false := by
  have hc : c ≠ ' ' := by
    intro e; subst e; simp [isWs] at h
  simpa [replChar, hc] using h

/-- The full per-character normalizer is idempotent. -/
theorem normChar_idem (c : Char) :
    replChar (lowChar (replChar (lowChar c))) = replChar (lowChar c) := by
  by_cases h : lowChar c = ' '
  · rw [h]; decide
  · have e : replChar (lowChar c) = lowChar c := by simp [replChar, h]
    rw [e, lowChar_lowChar, e]

/-! ### Stripping lemmas -/

theorem head?_dropWhile_ws (l : List Char) (c : Char)
    (h : (l.dropWhile isWs).head? = some c) : isWs c = false := by
  induction l with
  | nil => simp at h
  | cons a t ih =>
    rw [List.dropWhile_cons] at h
    split at h
    · exact ih h
    · next hw =>
      have : a = c := by simpa using h
      subst this
      simpa using hw

theorem head?_prefix_mono {α : Type} {x y : List α} (hp : x <+: y) {c : α}
    (h : x.head? = some c) : y.head? = some c := by
  obtain ⟨t, rfl⟩ := hp
  cases x with
  | nil => simp at h
  | cons a s => simpa using h

theorem getLast?_rdropWhile_ws (l : List Char) (c : Char)
    (h : (l.rdropWhile isWs).getLast? = some c) : isWs c = false := by
  unfold List.rdropWhile at h
  rw [List.getLast?_reverse] at h
  exact head?_dropWhile_ws _ _ h

theorem stripChars_head? (l : List Char) (c : Char)
    (h : (stripChars l).head? = some c) : isWs c = false := by
  unfold stripChars at h
  have hp := List.rdropWhile_prefix isWs (l.dropWhile isWs)
  exact head?_dropWhile_ws l c (head?_prefix_mono hp h)

theorem stripChars_getLast? (l : List Char) (c : Char)
    (h : (stripChars l).getLast? = some c) : isWs c = false := by
  unfold stripChars at h
  exact getLast?_rdropWhile_ws _ _ h

/-- Stripping fixes any character list whose two ends are not whitespace. -/
theorem stripChars_eq_self (l : List Char)
    (h1 : ∀ c, l.head? = some c → isWs c = false)
    (h2 : ∀ c, l.getLast? = some c → isWs c = false) : stripChars l = l := by
  unfold stripChars
  have e1 : l.dropWhile isWs = l := by
    rw [List.dropWhile_eq_self_iff]
    intro hl
    have hh : l.head? = some (l.get ⟨0, hl⟩) := by
      rw [List.head?_eq_getElem?, List.get_eq_getElem, List.getElem?_eq_getElem hl]
    have hc := h1 _ hh
    simp only [List.get_eq_getElem] at hc
    simp [hc]
  rw [e1, List.rdropWhile_eq_self_iff]
  intro hl
  have hh : l.getLast? = some (l.getLast hl) := List.getLast?_eq_getLast_of_ne_nil hl
  simp [h2 _ hh]

theorem stripChars_idem (l : List Char) : stripChars (stripChars l) = stripChars l :=
  stripChars_eq_self _ (stripChars_head? l) (stripChars_getLast? l)

theorem pyStrip_idem (s : String) : pyStrip (pyStrip s) = pyStrip s := by
  show (⟨stripChars (stripChars s.data)⟩ : String) = ⟨stripChars s.data⟩
  rw [stripChars_idem]

/-! ### normName idempotence -/

theorem charNorm_head? (l : List Char) (c : Char)
    (h : (charNorm l).head? = some c) : isWs c = false := by
  unfold charNorm at h
  rw [List.head?_map, List.head?_map] at h
  cases hh : (stripChars l).head? with
  | none => rw [hh] at h; simp at h
  | some d =>
    rw [hh] at h
    have hc : replChar (lowChar d) = c := by simpa using h
    have hd := stripChars_head? l d hh
    rw [← hc]
    exact isWs_replChar_of_not (by rw [isWs_lowChar]; exact hd)

theorem charNorm_getLast? (l : List Char) (c : Char)
    (h : (charNorm l).getLast? = some c) : isWs c = false := by
  unfold charNorm at h
  rw [List.getLast?_map, List.getLast?_map] at h
  cases hh : (stripChars l).getLast? with
  | none => rw [hh] at h; simp at h
  | some d =>
    rw [hh] at h
    have hc : replChar (lowChar d) = c := by simpa using h
    have hd := stripChars_getLast? l d hh
    rw [← hc]
    exact isWs_replChar_of_not (by rw [isWs_lowChar]; exact hd)

theorem charNorm_idem (l : List Char) : charNorm (charNorm l) = charNorm l := by
  have hs : stripChars (charNorm l) = charNorm l :=
    stripChars_eq_self _ (charNorm_head? l) (charNorm_getLast? l)
  show ((stripChars (charNorm l)).map lowChar).map replChar = charNorm l
  rw [hs]
  show ((((stripChars l).map lowChar).map replChar).map lowChar).map replChar
      = ((stripChars l).map lowChar).map replChar
  simp only [List.map_map]
  apply List.map_congr_left
  intro c _
  simp only [Function.comp_apply]
  exact normChar_idem c

theorem normName_eq_charNorm (s : String) : normName s = ⟨charNorm s.data⟩ := rfl

theorem normName_idem (s : String) : normName (normName s) = normName s := by
  show (⟨charNorm (charNorm s.data)⟩ : String) = ⟨charNorm s.data⟩
  rw [charNorm_idem]

/-! ### cleanCell lemmas -/

theorem cleanCell_idem (c : Cell) : cleanCell (cleanCell c) = cleanCell c := by
  cases c with
  | str s =>
    by_cases h : pyStrip s = ""
    · simp [cleanCell, h]
    · have e : cleanCell (.str s) = .str (pyStrip s) := by simp [cleanCell, h]
      rw [e]
      simp [cleanCell, pyStrip_idem, h]
  | num n => rfl
  | date d => rfl
  | missing => rfl

/-! ### Deduplication lemmas -/

theorem dedupeAux_sublist (l : List (List Cell)) : ∀ seen, (dedupeAux seen l).Sublist l := by
  induction l with
  | nil => intro seen; simp [dedupeAux]
  | cons r rs ih =>
    intro seen
    simp only [dedupeAux]
    split
    · exact (ih seen).cons r
    · exact (ih (r :: seen)).cons₂ r

theorem not_mem_seen_of_mem_dedupeAux (l : List (List Cell)) :
    ∀ seen x, x ∈ dedupeAux seen l → x ∉ seen := by
  induction l with
  | nil => intro seen x h; simp [dedupeAux] at h
  | cons r rs ih =>
    intro seen x h
    simp only [dedupeAux] at h
    split at h
    · exact ih seen x h
    · next hr =>
      rcases List.mem_cons.mp h with rfl | h2
      · exact hr
      · intro hx
        exact ih (r :: seen) x h2 (List.mem_cons_of_mem r hx)

theorem dedupeAux_nodup (l : List (List Cell)) : ∀ seen, (dedupeAux seen l).Nodup := by
  induction l with
  | nil => intro seen; simp [dedupeAux]
  | cons r rs ih =>
    intro seen
    simp only [dedupeAux]
    split
    · exact ih seen
    · refine List.Nodup.cons ?_ (ih (r :: seen))
      intro hr
      exact not_mem_seen_of_mem_dedupeAux rs (r :: seen) r hr (List.mem_cons_self r seen)

theorem dedupeAux_eq_self (l : List (List Cell)) :
    ∀ seen, l.Nodup → (∀ x ∈ l, x ∉ seen) → dedupeAux seen l = l := by
  induction l with
  | nil => intro seen _ _; rfl
  | cons r rs ih =>
    intro seen hnd hs
    have hr : r ∉ seen := hs r (List.mem_cons_self r rs)
    simp only [dedupeAux, if_neg hr]
    congr 1
    apply ih (r :: seen) hnd.of_cons
    intro x hx hmem
    rcases List.mem_cons.mp hmem with rfl | h2
    · exact (List.nodup_cons.mp hnd).1 hx
    · exact hs x (List.mem_cons_of_mem r hx) h2

theorem dedupeRows_sublist (l : List (List Cell)) : (dedupeRows l).Sublist l :=
  dedupeAux_sublist l []

theorem dedupeRows_nodup (l : List (List Cell)) : (dedupeRows l).Nodup :=
  dedupeAux_nodup l []

theorem dedupeRows_eq_self_of_nodup {l : List (List Cell)} (h : l.Nodup) :
    dedupeRows l = l :=
  dedupeAux_eq_self l [] h (by simp)

theorem dedupeRows_length_le (l : List (List Cell)) :
    (dedupeRows l).length ≤ l.length :=
  (dedupeRows_sublist l).length_le

theorem dedupeRows_length_eq_iff (l : List (List Cell)) :
    (dedupeRows l).length = l.length ↔ l.Nodup := by
  constructor
  · intro h
    have he := (dedupeRows_sublist l).eq_of_length h
    rw [← he]
    exact dedupeRows_nodup l
  · intro h
    rw [dedupeRows_eq_self_of_nodup h]

theorem mem_of_mem_dedupeRows {l : List (List Cell)} {x : List Cell}
    (h : x ∈ dedupeRows l) : x ∈ l :=
  (dedupeRows_sublist l).subset h

/-! ### Cleaning-stage lemmas -/

theorem getElem?_cleanCellsFrom (rows : List (List Cell)) :
    ∀ (r : List Cell) (j k : Nat),
      (cleanCellsFrom rows j r)[k]? =
        (r[k]?).map (fun c => if colIsObj rows (j + k) then cleanCell c else c) := by
  intro r
  induction r with
  | nil => intro j k; simp [cleanCellsFrom]
  | cons c cs ih =>
    intro j k
    cases k with
    | zero => simp [cleanCellsFrom]
    | succ k =>
      simp only [cleanCellsFrom, List.getElem?_cons_succ]
      rw [ih (j + 1) k]
      have e : j + 1 + k = j + (k + 1) := by omega
      rw [e]

theorem colIsObj_intro {rows : List (List Cell)} {k : Nat} {r : List Cell}
    (hr : r ∈ rows) (hs : (r.getD k Cell.missing).isStr = true) :
    colIsObj rows k = true := by
  unfold colIsObj
  rw [List.any_eq_true]
  exact ⟨r, hr, hs⟩

theorem colIsObj_elim {rows : List (List Cell)} {k : Nat}
    (h : colIsObj rows k = true) :
    ∃ r ∈ rows, (r.getD k Cell.missing).isStr = true := by
  unfold colIsObj at h
  rw [List.any_eq_true] at h
  exact h

theorem colIsObj_of_mem {l m : List (List Cell)} (hsub : ∀ x ∈ l, x ∈ m) {k : Nat}
    (h : colIsObj l k = true) : colIsObj m k = true := by
  obtain ⟨r, hr, hx⟩ := colIsObj_elim h
  exact colIsObj_intro (hsub r hr) hx

theorem colIsObj_cleanRows {rows : List (List Cell)} {k : Nat}
    (h : colIsObj (cleanRows rows) k = true) : colIsObj rows k = true := by
  obtain ⟨r, hr, hs⟩ := colIsObj_elim h
  unfold cleanRows at hr
  rcases List.mem_map.mp hr with ⟨r0, hr0, rfl⟩
  rw [List.getD_eq_getElem?_getD, getElem?_cleanCellsFrom, Nat.zero_add] at hs
  cases hok : r0[k]? with
  | none => rw [hok] at hs; simp [Cell.isStr] at hs
  | some c0 =>
    rw [hok, Option.map_some'] at hs
    by_cases hobj : colIsObj rows k = true
    · exact hobj
    · rw [if_neg hobj, Option.getD_some] at hs
      exact colIsObj_intro hr0 (by rw [List.getD_eq_getElem?_getD, hok]; exact hs)

theorem cleanCellsFrom_eq_self (L : List (List Cell)) :
    ∀ (r : List Cell) (j : Nat),
      (∀ k c, r[k]? = some c → colIsObj L (j + k) = true → cleanCell c = c) →
      cleanCellsFrom L j r = r := by
  intro r
  induction r with
  | nil => intro j _; rfl
  | cons c cs ih =>
    intro j h
    simp only [cleanCellsFrom]
    congr 1
    · split
      · next hobj => exact h 0 c (by simp) (by rw [Nat.add_zero]; exact hobj)
      · rfl
    · apply ih (j + 1)
      intro k c2 hk hobj
      apply h (k + 1) c2 (by simpa using hk)
      have e : j + (k + 1) = j + 1 + k := by omega
      rw [e]
      exact hobj

/-- Cleaning the cells of an already cleaned-and-deduplicated table changes
nothing. -/
theorem cleanRows_dedupe_cleanRows (rows : List (List Cell)) :
    cleanRows (dedupeRows (cleanRows rows)) = dedupeRows (cleanRows rows) := by
  have hfix : ∀ r ∈ dedupeRows (cleanRows rows),
      cleanCellsFrom (dedupeRows (cleanRows rows)) 0 r = r := by
    intro r hr
    apply cleanCellsFrom_eq_self
    intro k c hk hobj
    rw [Nat.zero_add] at hobj
    have hrc : r ∈ cleanRows rows := mem_of_mem_dedupeRows hr
    rcases List.mem_map.mp hrc with ⟨r0, hr0, rfl⟩
    rw [getElem?_cleanCellsFrom, Nat.zero_add] at hk
    cases hok : r0[k]? with
    | none => rw [hok] at hk; simp at hk
    | some c0 =>
      rw [hok, Option.map_some'] at hk
      have hc : (if colIsObj rows k then cleanCell c0 else c0) = c := by
        simpa using hk
      by_cases hobj0 : colIsObj rows k = true
      · rw [if_pos hobj0] at hc
        rw [← hc]
        exact cleanCell_idem c0
      · exfalso
        apply hobj0
        apply colIsObj_cleanRows
        exact colIsObj_of_mem (fun x hx => mem_of_mem_dedupeRows hx) hobj
  show (dedupeRows (cleanRows rows)).map (cleanCellsFrom (dedupeRows (cleanRows rows)) 0)
      = dedupeRows (cleanRows rows)
  calc (dedupeRows (cleanRows rows)).map (cleanCellsFrom (dedupeRows (cleanRows rows)) 0)
      = (dedupeRows (cleanRows rows)).map id := List.map_congr_left hfix
    _ = dedupeRows (cleanRows rows) := List.map_id _

theorem length_cleanRows (rows : List (List Cell)) :
    (cleanRows rows).length = rows.length := by
  unfold cleanRows
  rw [List.length_map]

/-! ### Validator normal form -/

theorem foldl_append_flatten {α β : Type} (g : α → List β) :
    ∀ (l : List α) (init : List β),
      l.foldl (fun acc c => acc ++ g c) init = init ++ (l.map g).flatten := by
  intro l
  induction l with
  | nil => intro init; simp
  | cons c cs ih =>
    intro init
    simp only [List.foldl_cons, List.map_cons, List.flatten_cons]
    rw [ih (init ++ g c), List.append_assoc]

/-- The Validator output in closed form: the accumulating loop of
validate_data produces the duplicate-issue segment followed by the
per-column segments in order. -/
theorem validate_data_eq (df : Table) (rc : List String) :
    validate_data df rc = validateSpec df rc := by
  unfold validate_data validateSpec
  have hbody : (fun (issues : List String) col =>
      if col ∉ df.cols then issues ++ [missingColIssue col]
      else if missingCount df col > 0 then issues ++ [missingValIssue col (missingCount df col)]
      else issues) = (fun acc c => acc ++ colIssues df c) := by
    funext acc c
    by_cases h1 : c ∉ df.cols
    · simp [colIssues, h1]
    · by_cases h2 : missingCount df c > 0
      · simp [colIssues, h1, h2]
      · simp [colIssues, h1, h2]
  rw [hbody, foldl_append_flatten]
  congr 1

/-! ### The claims -/

/-- Claim C1 (code bug evidence): on a mixed object column (a string and a
number), clean_data maps the non-string cell `num 5` to the missing marker
instead of leaving it unchanged, because .str.strip() on an object column
turns non-string elements into NaN. -/
theorem claim_C1_code_bug :
    clean_data (Table.mk ["c"] [[Cell.str "x"], [Cell.num 5]]) =
      Table.mk ["c"] [[Cell.str "x"], [Cell.missing]] := by
  decide

/-- On the no-raise path, the only failures validate_data models are the
returned issue strings: every element of its output is one of the three
issue forms, with a positive count where one is reported and a
required-column name where one is named. -/
theorem validator_issue_forms (df : Table) (rc : List String) (s : String)
    (h : s ∈ validate_data df rc) :
    (∃ n, 0 < n ∧ s = dupIssue n) ∨ (∃ c, c ∈ rc ∧ s = missingColIssue c) ∨
      (∃ c n, c ∈ rc ∧ 0 < n ∧ s = missingValIssue c n) := by
  rw [validate_data_eq] at h
  unfold validateSpec at h
  rcases List.mem_append.mp h with h1 | h2
  · unfold dupIssues at h1
    split at h1
    · next hdup =>
      left
      exact ⟨dupCount df.rows, hdup, by simpa using h1⟩
    · simp at h1
  · rcases List.mem_flatten.mp h2 with ⟨li, hli, hsli⟩
    rcases List.mem_map.mp hli with ⟨c, hc, rfl⟩
    unfold colIssues at hsli
    split at hsli
    · right; left
      exact ⟨c, hc, by simpa using hsli⟩
    · split at hsli
      · next hmc =>
        right; right
        exact ⟨c, missingCount df c, hc, hmc, by simpa using hsli⟩
      · simp at hsli

/-- Claim C2 (code bug evidence): the raw table with pairwise-distinct
column names "A " and "a" normalizes to the duplicated label list
["a", "a"]; with the pandas label-collision error path modeled,
clean_data raises (AttributeError at df[col].str, the label "a" naming
an object column twice) and validate_data on the normalized table with
required column "a" raises (ValueError at the Series comparison
`missing_count > 0`), so the core functions can raise on a reachable
input — the pipeline itself passes the normalized table to both. -/
theorem claim_C2_code_bug :
    clean_dataE (Table.mk ["A ", "a"] [[Cell.str "x", Cell.str "y"]]) =
        Except.error "AttributeError" ∧
      validate_dataE (normalize_columns (Table.mk ["A ", "a"] [[Cell.str "x", Cell.str "y"]]))
          ["a"] = Except.error "ValueError" :=
  ⟨rfl, rfl⟩

/-- Claim C3 (counterexample): the table with distinct raw column names
"A " and "a" normalizes to the duplicated name list ["a", "a"], so
normalization does not preserve uniqueness of column names. -/
theorem claim_C3_counterexample :
    (Table.mk ["A ", "a"] []).cols.Nodup ∧
      ¬ (normalize_columns (Table.mk ["A ", "a"] [])).cols.Nodup := by
  decide

/-- Claim C3 (amended): the Normalizer maps each column name through the
normalizer with no column reordered or dropped and the rows untouched, and
the output names are pairwise distinct whenever the normalized input names
are pairwise distinct (input distinctness alone does not suffice). -/
theorem claim_C3_amended (T : Table) (h : (T.cols.map normName).Nodup) :
    (normalize_columns T).cols = T.cols.map normName ∧
      (normalize_columns T).rows = T.rows ∧ (normalize_columns T).cols.Nodup :=
  ⟨rfl, rfl, h⟩

theorem claim_C3_witness :
    ((["Date ", "Amount"].map normName).Nodup) ∧
      ((normalize_columns (Table.mk ["Date ", "Amount"] [])).cols =
          ["Date ", "Amount"].map normName ∧
        (normalize_columns (Table.mk ["Date ", "Amount"] [])).rows = [] ∧
        (normalize_columns (Table.mk ["Date ", "Amount"] [])).cols.Nodup) :=
  ⟨by decide, claim_C3_amended (Table.mk ["Date ", "Amount"] []) (by decide)⟩

/-- Claim C4 (counterexample): the input rows ["a "] and ["a"] are not
duplicates of each other, yet clean_data strips them to the same row and
drops one, so equality of row counts does not follow from the absence of
input duplicates. -/
theorem claim_C4_counterexample :
    (Table.mk ["c"] [[Cell.str "a "], [Cell.str "a"]]).rows.Nodup ∧
      (clean_data (Table.mk ["c"] [[Cell.str "a "], [Cell.str "a"]])).rows.length ≠
        (Table.mk ["c"] [[Cell.str "a "], [Cell.str "a"]]).rows.length := by
  decide

/-- Claim C4 (amended): the Cleaner never increases the row count, and the
output row count equals the input row count exactly when the rows after
the cell-cleaning stage (stripping and empty-to-missing on object columns)
contain no duplicates. -/
theorem claim_C4_amended (T : Table) :
    (clean_data T).rows.length ≤ T.rows.length ∧
      ((clean_data T).rows.length = T.rows.length ↔ (cleanRows T.rows).Nodup) := by
  constructor
  · calc (clean_data T).rows.length ≤ (cleanRows T.rows).length :=
        dedupeRows_length_le _
      _ = T.rows.length := length_cleanRows _
  · show (dedupeRows (cleanRows T.rows)).length = T.rows.length ↔ _
    rw [← length_cleanRows T.rows]
    exact dedupeRows_length_eq_iff _

/-- Claim C5: for a required column present in the table, the Validator
counts exactly the rows holding the true missing marker in that column,
and a row whose cell there is the empty string contributes nothing. -/
theorem claim_C5_missing_marker_only (df : Table) (col : String) (i : Nat)
    (hi : df.cols.indexOf? col = some i) (r : List Cell)
    (hr : r.getD i Cell.missing = Cell.str "") :
    missingCount df col =
        (df.rows.filter (fun row => row.getD i Cell.missing = Cell.missing)).length ∧
      missingCount (Table.mk df.cols (df.rows ++ [r])) col = missingCount df col := by
  constructor
  · unfold missingCount
    rw [hi]
    show (df.rows.map (fun row => row.getD i Cell.missing)).countP isna =
        (df.rows.filter (fun row => row.getD i Cell.missing = Cell.missing)).length
    rw [List.countP_map, List.countP_eq_length_filter]
    congr 1
    apply List.filter_congr
    intro row _
    show isna (row.getD i Cell.missing) = decide (row.getD i Cell.missing = Cell.missing)
    cases hcell : row.getD i Cell.missing <;> rfl
  · unfold missingCount
    rw [hi]
    show ((df.rows ++ [r]).map (fun row => row.getD i Cell.missing)).countP isna =
        (df.rows.map (fun row => row.getD i Cell.missing)).countP isna
    rw [List.map_append, List.countP_append]
    have h0 : ([r].map (fun row => row.getD i Cell.missing)).countP isna = 0 := by
      show List.countP isna [r.getD i Cell.missing] = 0
      rw [hr]
      rfl
    rw [h0, Nat.add_zero]

theorem claim_C5_witness :
    ((["c"] : List String).indexOf? "c" = some 0) ∧
      (([Cell.str ""] : List Cell).getD 0 Cell.missing = Cell.str "") ∧
      (missingCount (Table.mk ["c"] [[Cell.missing], [Cell.str ""]]) "c" =
          (([[Cell.missing], [Cell.str ""]] : List (List Cell)).filter
            (fun row => row.getD 0 Cell.missing = Cell.missing)).length ∧
        missingCount
            (Table.mk ["c"] ([[Cell.missing], [Cell.str ""]] ++ [[Cell.str ""]])) "c" =
          missingCount (Table.mk ["c"] [[Cell.missing], [Cell.str ""]]) "c") :=
  ⟨by decide, by decide,
    claim_C5_missing_marker_only (Table.mk ["c"] [[Cell.missing], [Cell.str ""]])
      "c" 0 (by decide) [Cell.str ""] (by decide)⟩

/-- Claim C6: the Validator output is exactly the duplicate-count issue
(present iff the count is positive) followed, in required-column order, by
the missing-column issue for absent names and the missing-values issue for
present names with a positive missing count, and nothing else. -/
theorem claim_C6_validator_output (df : Table) (rc : List String) :
    validate_data df rc = dupIssues df ++ (rc.map (colIssues df)).flatten :=
  validate_data_eq df rc

/-- Claim C7: the assembled Validation_Report has the single column
Validation_Issues; an empty issue sequence yields exactly the one
No-issues row, and a non-empty sequence yields its issues as rows, in
order, one row per issue. -/
theorem claim_C7_report_assembly (issues : List String) :
    (report issues).cols = ["Validation_Issues"] ∧
      (issues = [] → (report issues).rows = [[Cell.str "No issues found"]]) ∧
      (issues ≠ [] → (report issues).rows = issues.map (fun s => [Cell.str s]) ∧
        (report issues).rows.length = issues.length) := by
  by_cases h : issues = []
  · subst h
    exact ⟨rfl, fun _ => rfl, fun hc => absurd rfl hc⟩
  · have he : issues.isEmpty = false := by
      rw [← Bool.not_eq_true, List.isEmpty_iff]
      exact h
    unfold report
    rw [he]
    refine ⟨rfl, fun hc => absurd hc h, fun _ => ⟨rfl, ?_⟩⟩
    show (issues.map (fun s => [Cell.str s])).length = issues.length
    rw [List.length_map]

theorem claim_C7_witness :
    (report []).rows = [[Cell.str "No issues found"]] ∧
      (report ["a", "b"]).rows = [[Cell.str "a"], [Cell.str "b"]] :=
  ⟨(claim_C7_report_assembly []).2.1 rfl,
    ((claim_C7_report_assembly ["a", "b"]).2.2 (by decide)).1⟩

/-- Claim C8: the Normalizer is idempotent on tables, equivalently the
name normalizer is idempotent on column names. -/
theorem claim_C8_normalizer_idempotent :
    (∀ T : Table, normalize_columns (normalize_columns T) = normalize_columns T) ∧
      (∀ s : String, normName (normName s) = normName s) := by
  constructor
  · intro T
    show Table.mk ((T.cols.map normName).map normName) T.rows =
        Table.mk (T.cols.map normName) T.rows
    congr 1
    rw [List.map_map]
    exact List.map_congr_left (fun s _ => normName_idem s)
  · exact normName_idem

/-- Claim C9: the Cleaner is idempotent: cleaning an already-cleaned table
yields an identical table. -/
theorem claim_C9_cleaner_idempotent (T : Table) :
    clean_data (clean_data T) = clean_data T := by
  show Table.mk ((T.cols.map normName).map normName)
        (dedupeRows (cleanRows (dedupeRows (cleanRows T.rows)))) =
      Table.mk (T.cols.map normName) (dedupeRows (cleanRows T.rows))
  congr 1
  · rw [List.map_map]
    exact List.map_congr_left (fun s _ => normName_idem s)
  · rw [cleanRows_dedupe_cleanRows]
    exact dedupeRows_eq_self_of_nodup (dedupeRows_nodup _)

/-- Claim C10: clean_data normalizes column names itself as its first
step, so pre-normalizing changes nothing and the cleaned output always
carries normalized column names. -/
theorem claim_C10_clean_normalizes (T : Table) :
    clean_data (normalize_columns T) = clean_data T ∧
      (clean_data T).cols = T.cols.map normName := by
  constructor
  · show Table.mk ((T.cols.map normName).map normName)
          (dedupeRows (cleanRows T.rows)) =
        Table.mk (T.cols.map normName) (dedupeRows (cleanRows T.rows))
    congr 1
    rw [List.map_map]
    exact List.map_congr_left (fun s _ => normName_idem s)
  · rfl

end ExcelApp
